import Mathlib

/-!
Verification of the constant-propagation / peephole optimization pass of the
shader recompiler (`src/shader_recompiler/ir_opt/constant_propagation_pass.cpp`).

The pass operates on an SSA-style intermediate representation.  The IR
substrate itself (values, instructions) lives outside the sources provided;
it is modelled here from the specification (sections 3 and 6): a `Value` is
either a typed immediate or a reference to the producing instruction, an
`Inst` has an opcode, a fixed-arity argument list, the floating-point
no-contraction flag and the "has associated pseudo-operation" bit.  The pass
functions themselves (`FoldCommutative`, `FoldAdd`, `FoldISub32`,
`FoldXmadMultiply`, `FoldFPMul32`, `FoldLogicalAnd`, `FoldLogicalOr`,
`FoldCompositeExtract`, ... and the `ConstantPropagation` dispatcher) are
translated directly from the C++ source.

Machine integers are modelled as `Nat` with explicit reduction mod 2^32 /
2^64 where the C++ unsigned arithmetic wraps.  The C++ `throw LogicError`
is modelled as `Except.error`.  Replacing all uses of an instruction
(`ReplaceUsesWith`) is modelled by the `FoldAct.replace` outcome; in-place
operand/opcode rewrites are modelled by returning the updated instruction.
-/

namespace ConstProp

/-- Opcodes of the IR that this pass inspects or dispatches on.  Modelled
from the spec: the opcode enumeration is closed and owned by the IR
substrate; only the members referenced by the pass are listed, plus
`Identity` (trivial indirection used by value resolution) and `Void`. -/
inductive Opcode where
  | Void
  | Identity
  | Phi
  | GetRegister
  | GetPred
  | GetCbufU32
  | GetCbufF32
  | GetAttribute
  | IAdd32
  | IAdd64
  | ISub32
  | IMul32
  | ShiftLeftLogical32
  | BitFieldUExtract
  | BitFieldSExtract
  | BitCastU32F32
  | BitCastF32U32
  | PackHalf2x16
  | UnpackHalf2x16
  | SelectU1
  | SelectU8
  | SelectU16
  | SelectU32
  | SelectU64
  | SelectF16
  | SelectF32
  | SelectF64
  | FPMul32
  | FPRecip32
  | LogicalAnd
  | LogicalOr
  | LogicalNot
  | SLessThan
  | ULessThan
  | SLessThanEqual
  | ULessThanEqual
  | SGreaterThan
  | UGreaterThan
  | SGreaterThanEqual
  | UGreaterThanEqual
  | IEqual
  | INotEqual
  | BranchConditional
  | CompositeConstructF32x2
  | CompositeConstructF32x3
  | CompositeConstructF32x4
  | CompositeInsertF32x2
  | CompositeInsertF32x3
  | CompositeInsertF32x4
  | CompositeExtractF32x2
  | CompositeExtractF32x3
  | CompositeExtractF32x4
  | CompositeConstructF16x2
  | CompositeConstructF16x3
  | CompositeConstructF16x4
  | CompositeInsertF16x2
  | CompositeInsertF16x3
  | CompositeInsertF16x4
  | CompositeExtractF16x2
  | CompositeExtractF16x3
  | CompositeExtractF16x4
  deriving DecidableEq, Repr

mutual

/-- An IR value.  Modelled from the spec: "either an immediate constant
(tagged by a primitive type: boolean, 32/64-bit integer, 32-bit float, or
opaque register/predicate/attribute identifier) or a reference to the
instruction that produces it".  Floats are carried as raw bit patterns
(the pass only reinterprets bits, it performs no float arithmetic). -/
inductive Value where
  | void
  | u1 (b : Bool)
  | u32 (n : Nat)
  | u64 (n : Nat)
  | f32 (bits : Nat)
  | reg (r : Nat)
  | pred (p : Nat)
  | attr (a : Nat)
  | inst (i : Inst)

/-- An IR instruction: opcode, the floating-point no-contraction flag, the
"has an associated pseudo-operation" bit, and up to four argument values
(arity is fixed per opcode; unused slots hold `Value.void`).  Modelled
from the spec (section 3). -/
inductive Inst where
  | mk (op : Opcode) (noContraction : Bool) (hasPseudoOp : Bool)
       (a0 a1 a2 a3 : Value)

end

mutual

def Value.beq : Value → Value → Bool
  | .void, .void => true
  | .u1 b, .u1 b' => b == b'
  | .u32 n, .u32 n' => n == n'
  | .u64 n, .u64 n' => n == n'
  | .f32 n, .f32 n' => n == n'
  | .reg r, .reg r' => r == r'
  | .pred p, .pred p' => p == p'
  | .attr a, .attr a' => a == a'
  | .inst i, .inst i' => Inst.beq i i'
  | _, _ => false

def Inst.beq : Inst → Inst → Bool
  | .mk op nc ps a0 a1 a2 a3, .mk op' nc' ps' b0 b1 b2 b3 =>
    op == op' && nc == nc' && ps == ps' && Value.beq a0 b0 && Value.beq a1 b1
      && Value.beq a2 b2 && Value.beq a3 b3

end

mutual

theorem valueBeq_iff : ∀ a b : Value, Value.beq a b = true ↔ a = b
  | .void, b => by cases b <;> simp [Value.beq]
  | .u1 x, b => by cases b <;> simp [Value.beq]
  | .u32 x, b => by cases b <;> simp [Value.beq]
  | .u64 x, b => by cases b <;> simp [Value.beq]
  | .f32 x, b => by cases b <;> simp [Value.beq]
  | .reg x, b => by cases b <;> simp [Value.beq]
  | .pred x, b => by cases b <;> simp [Value.beq]
  | .attr x, b => by cases b <;> simp [Value.beq]
  | .inst i, b => by
      cases b <;> simp [Value.beq]
      exact instBeq_iff i _

theorem instBeq_iff : ∀ a b : Inst, Inst.beq a b = true ↔ a = b
  | .mk op nc ps a0 a1 a2 a3, .mk op' nc' ps' b0 b1 b2 b3 => by
      simp only [Inst.beq, Bool.and_eq_true, beq_iff_eq, valueBeq_iff,
        Inst.mk.injEq]
      tauto

end

instance : DecidableEq Value := fun a b =>
  decidable_of_iff (Value.beq a b = true) (valueBeq_iff a b)

instance : DecidableEq Inst := fun a b =>
  decidable_of_iff (Inst.beq a b = true) (instBeq_iff a b)

instance (ε α : Type) [DecidableEq ε] [DecidableEq α] :
    DecidableEq (Except ε α) := fun x y =>
  match x, y with
  | .ok a, .ok b =>
      if h : a = b then .isTrue (h ▸ rfl)
      else .isFalse (fun hc => h (Except.ok.inj hc))
  | .error e, .error f =>
      if h : e = f then .isTrue (h ▸ rfl)
      else .isFalse (fun hc => h (Except.error.inj hc))
  | .ok _, .error _ => .isFalse (fun hc => Except.noConfusion hc)
  | .error _, .ok _ => .isFalse (fun hc => Except.noConfusion hc)

/-- Opcode of an instruction. -/
def Inst.opcode : Inst → Opcode
  | .mk op _ _ _ _ _ _ => op

/-- The floating-point control "no contraction" flag (`Flags<FpControl>`). -/
def Inst.noContraction : Inst → Bool
  | .mk _ nc _ _ _ _ _ => nc

/-- Whether the instruction has an associated pseudo-operation
(`HasAssociatedPseudoOperation`). -/
def Inst.hasPseudoOp : Inst → Bool
  | .mk _ _ ps _ _ _ _ => ps

/-- `Inst::Arg(index)`.  Out-of-arity slots hold `Value.void`. -/
def Inst.arg : Inst → Nat → Value
  | .mk _ _ _ a0 _ _ _, 0 => a0
  | .mk _ _ _ _ a1 _ _, 1 => a1
  | .mk _ _ _ _ _ a2 _, 2 => a2
  | .mk _ _ _ _ _ _ a3, 3 => a3
  | _, _ => .void

/-- `Inst::SetArg(index, value)`: in-place operand rewrite, modelled by
returning the updated instruction. -/
def Inst.setArg : Inst → Nat → Value → Inst
  | .mk op nc ps _ a1 a2 a3, 0, v => .mk op nc ps v a1 a2 a3
  | .mk op nc ps a0 _ a2 a3, 1, v => .mk op nc ps a0 v a2 a3
  | .mk op nc ps a0 a1 _ a3, 2, v => .mk op nc ps a0 a1 v a3
  | .mk op nc ps a0 a1 a2 _, 3, v => .mk op nc ps a0 a1 a2 v
  | i, _, _ => i

/-- `Inst::ReplaceOpcode`. -/
def Inst.setOpcode : Inst → Opcode → Inst
  | .mk _ nc ps a0 a1 a2 a3, op => .mk op nc ps a0 a1 a2 a3

/-- Placeholder instruction returned by value accessors on immediates;
never inspected on the guarded paths of the pass (the C++ accessors
assert non-immediacy there). -/
def dummyInst : Inst := .mk .Void false false .void .void .void .void

/-- Convenience constructor: instruction with given opcode and argument
list, default flags, remaining slots `Value.void`. -/
def mkInst (op : Opcode) (args : List Value) : Inst :=
  .mk op false false (args.getD 0 .void) (args.getD 1 .void)
    (args.getD 2 .void) (args.getD 3 .void)

/-- Number of arguments of each opcode (the IR fixes arity per opcode).
Modelled from the spec: "an ordered sequence of argument Values (arity
fixed per opcode)". -/
def numArgsOf : Opcode → Nat
  | .Void => 0
  | .Identity => 1
  | .Phi => 0
  | .GetRegister => 1
  | .GetPred => 1
  | .GetCbufU32 => 2
  | .GetCbufF32 => 2
  | .GetAttribute => 1
  | .IAdd32 => 2
  | .IAdd64 => 2
  | .ISub32 => 2
  | .IMul32 => 2
  | .ShiftLeftLogical32 => 2
  | .BitFieldUExtract => 3
  | .BitFieldSExtract => 3
  | .BitCastU32F32 => 1
  | .BitCastF32U32 => 1
  | .PackHalf2x16 => 1
  | .UnpackHalf2x16 => 1
  | .SelectU1 => 3
  | .SelectU8 => 3
  | .SelectU16 => 3
  | .SelectU32 => 3
  | .SelectU64 => 3
  | .SelectF16 => 3
  | .SelectF32 => 3
  | .SelectF64 => 3
  | .FPMul32 => 2
  | .FPRecip32 => 1
  | .LogicalAnd => 2
  | .LogicalOr => 2
  | .LogicalNot => 1
  | .SLessThan => 2
  | .ULessThan => 2
  | .SLessThanEqual => 2
  | .ULessThanEqual => 2
  | .SGreaterThan => 2
  | .UGreaterThan => 2
  | .SGreaterThanEqual => 2
  | .UGreaterThanEqual => 2
  | .IEqual => 2
  | .INotEqual => 2
  | .BranchConditional => 3
  | .CompositeConstructF32x2 => 2
  | .CompositeConstructF32x3 => 3
  | .CompositeConstructF32x4 => 4
  | .CompositeInsertF32x2 => 3
  | .CompositeInsertF32x3 => 3
  | .CompositeInsertF32x4 => 3
  | .CompositeExtractF32x2 => 2
  | .CompositeExtractF32x3 => 2
  | .CompositeExtractF32x4 => 2
  | .CompositeConstructF16x2 => 2
  | .CompositeConstructF16x3 => 3
  | .CompositeConstructF16x4 => 4
  | .CompositeInsertF16x2 => 3
  | .CompositeInsertF16x3 => 3
  | .CompositeInsertF16x4 => 3
  | .CompositeExtractF16x2 => 2
  | .CompositeExtractF16x3 => 2
  | .CompositeExtractF16x4 => 2

/-- `Value::IsImmediate`.  Modelled from the spec: a value is an immediate
when it is not a reference to a producing instruction; trivial `Identity`
indirection is looked through. -/
def Value.isImmediate : Value → Bool
  | .inst (.mk .Identity _ _ a0 _ _ _) => a0.isImmediate
  | .inst _ => false
  | _ => true

/-- `Value::InstRecursive`: the producing instruction, looking through
`Identity` indirection.  Only called on non-immediate values (the C++
accessor asserts this); yields `dummyInst` otherwise. -/
def Value.instRecursive : Value → Inst
  | .inst (.mk .Identity _ _ a0 _ _ _) => a0.instRecursive
  | .inst i => i
  | _ => dummyInst

/-- `Value::Resolve`: follow trivial `Identity` indirection. -/
def Value.resolve : Value → Value
  | .inst (.mk .Identity _ _ a0 _ _ _) => a0.resolve
  | v => v

/-- `Value::U1` (boolean immediate), looking through `Identity`.  The C++
accessor asserts the type tag; mismatches yield `false` here. -/
def Value.u1Val : Value → Bool
  | .u1 b => b
  | .inst (.mk .Identity _ _ a0 _ _ _) => a0.u1Val
  | _ => false

/-- `Value::U32`, looking through `Identity`.  Mismatches yield `0`. -/
def Value.u32Val : Value → Nat
  | .u32 n => n
  | .inst (.mk .Identity _ _ a0 _ _ _) => a0.u32Val
  | _ => 0

/-- `Value::U64`, looking through `Identity`.  Mismatches yield `0`. -/
def Value.u64Val : Value → Nat
  | .u64 n => n
  | .inst (.mk .Identity _ _ a0 _ _ _) => a0.u64Val
  | _ => 0

/-- `Value::F32` as a raw bit pattern, looking through `Identity`. -/
def Value.f32Val : Value → Nat
  | .f32 n => n
  | .inst (.mk .Identity _ _ a0 _ _ _) => a0.f32Val
  | _ => 0

/-- `Value::Reg` (register identifier immediate). -/
def Value.regVal : Value → Nat
  | .reg r => r
  | _ => 0

/-- `Value::Pred` (predicate identifier immediate). -/
def Value.predVal : Value → Nat
  | .pred p => p
  | _ => 0

/-- `Value::Attribute` (attribute identifier immediate). -/
def Value.attrVal : Value → Nat
  | .attr a => a
  | _ => 0

/-- `Inst::AreAllArgsImmediates`: every argument within the opcode's arity
is an immediate. -/
def Inst.areAllArgsImmediates (i : Inst) : Bool :=
  (List.range (numArgsOf i.opcode)).all fun k => (i.arg k).isImmediate

/-- The hardware's always-zero register `Reg::RZ`.  Modelled from the
spec: "Register read of the hardware's always-zero register". -/
def RZ : Nat := 255

/-- The hardware's always-true predicate `Pred::PT`.  Modelled from the
spec: "Predicate read of the hardware's always-true predicate". -/
def PT : Nat := 7

/-- Outcome of one folding rule on one instruction: either no result
replacement, or `ReplaceUsesWith v` (every use of the instruction is
rewired to `v`).  Operand/opcode rewrites are carried separately as the
updated instruction. -/
inductive FoldAct where
  | keep
  | replace (v : Value)
  deriving DecidableEq

/-- 32-bit wrapping addition (C++ `u32` addition). -/
def add32 (a b : Nat) : Nat := (a + b) % 2 ^ 32

/-- 64-bit wrapping addition (C++ `u64` addition). -/
def add64 (a b : Nat) : Nat := (a + b) % 2 ^ 64

/-- 32-bit wrapping subtraction (C++ `u32` subtraction). -/
def sub32 (a b : Nat) : Nat := (a % 2 ^ 32 + (2 ^ 32 - b % 2 ^ 32)) % 2 ^ 32

/-- Reinterpret a `u32` bit pattern as a signed 32-bit integer
(C++ `static_cast<s32>`). -/
def toS32 (n : Nat) : Int :=
  if n % 2 ^ 32 < 2 ^ 31 then (n % 2 ^ 32 : Int) else (n % 2 ^ 32 : Int) - 2 ^ 32

/-- `FoldCommutative<T>` from the source: `dec`/`enc` stand for the
`Arg<T>` decode of a typed immediate and the wrapping of a native result
back into a `Value`; `f` is the `imm_fn` closure.  The returned `Bool` is
the C++ return value (`false` = fully folded, caller stops), the returned
instruction is the in-place operand-rewritten state, and the `FoldAct`
records a `ReplaceUsesWith` performed inside. -/
def FoldCommutative {α : Type} (dec : Value → α) (enc : α → Value)
    (f : α → α → α) (inst : Inst) : Inst × FoldAct × Bool :=
  let lhs := inst.arg 0
  let rhs := inst.arg 1
  if lhs.isImmediate ∧ rhs.isImmediate then
    (inst, .replace (enc (f (dec lhs) (dec rhs))), false)
  else if lhs.isImmediate ∧ ¬ rhs.isImmediate then
    let rhsInst := rhs.instRecursive
    if rhsInst.opcode = inst.opcode ∧ (rhsInst.arg 1).isImmediate then
      ((inst.setArg 0 (rhsInst.arg 0)).setArg 1
        (enc (f (dec lhs) (dec (rhsInst.arg 1)))), .keep, true)
    else
      -- Normalize: swap so the immediate is the second operand
      ((inst.setArg 0 rhs).setArg 1 lhs, .keep, true)
  else if ¬ lhs.isImmediate ∧ rhs.isImmediate then
    let lhsInst := lhs.instRecursive
    if lhsInst.opcode = inst.opcode ∧ (lhsInst.arg 1).isImmediate then
      ((inst.setArg 0 (lhsInst.arg 0)).setArg 1
        (enc (f (dec rhs) (dec (lhsInst.arg 1)))), .keep, true)
    else (inst, .keep, true)
  else (inst, .keep, true)

/-- `FoldWhenAllImmediates` from the source: does nothing when some
argument is not an immediate or the instruction has an associated
pseudo-operation; otherwise evaluates the closure (which may throw a
`LogicError`, modelled by `Except.error`) and replaces all uses with the
result.  The `Bool` is the C++ return value. -/
def FoldWhenAllImmediates (inst : Inst) (f : Inst → Except String Value) :
    Except String (Inst × FoldAct × Bool) :=
  if ¬ inst.areAllArgsImmediates ∨ inst.hasPseudoOp then .ok (inst, .keep, false)
  else
    match f inst with
    | .error e => .error e
    | .ok v => .ok (inst, .replace v, true)

/-- `FoldWhenAllImmediates` for closures that cannot throw (every call
site except the two bit-field extracts). -/
def foldWhenAllImmTotal (inst : Inst) (f : Inst → Value) : Inst × FoldAct :=
  match FoldWhenAllImmediates inst (fun i => .ok (f i)) with
  | .ok (i, act, _) => (i, act)
  | .error _ => (inst, .keep)

/-- `FoldGetRegister`: a read of the always-zero register folds to
immediate `0`. -/
def FoldGetRegister (inst : Inst) : Inst × FoldAct :=
  if (inst.arg 0).regVal = RZ then (inst, .replace (.u32 0)) else (inst, .keep)

/-- `FoldGetPred`: a read of the always-true predicate folds to
immediate `true`. -/
def FoldGetPred (inst : Inst) : Inst × FoldAct :=
  if (inst.arg 0).predVal = PT then (inst, .replace (.u1 true)) else (inst, .keep)

/-- `FoldXmadMultiply`: recognizes the six-instruction XMAD pattern and,
when it matches, returns the replacement value — a newly emitted
`IMul32 factor_a factor_b`.  `none` means no fold. -/
def FoldXmadMultiply (inst : Inst) : Option Value :=
  let lhsArg := inst.arg 0
  let rhsArg := inst.arg 1
  if lhsArg.isImmediate ∨ rhsArg.isImmediate then none
  else
    let lhsShl := lhsArg.instRecursive
    if lhsShl.opcode ≠ .ShiftLeftLogical32 ∨ lhsShl.arg 1 ≠ .u32 16 then none
    else if (lhsShl.arg 0).isImmediate then none
    else
      let lhsMul := (lhsShl.arg 0).instRecursive
      let rhsMul := rhsArg.instRecursive
      if lhsMul.opcode ≠ .IMul32 ∨ rhsMul.opcode ≠ .IMul32 then none
      else if (lhsMul.arg 1).resolve ≠ (rhsMul.arg 1).resolve then none
      else
        let factorB := lhsMul.arg 1
        if (lhsMul.arg 0).isImmediate ∨ (rhsMul.arg 0).isImmediate then none
        else
          let lhsBfe := (lhsMul.arg 0).instRecursive
          let rhsBfe := (rhsMul.arg 0).instRecursive
          if lhsBfe.opcode ≠ .BitFieldUExtract then none
          else if rhsBfe.opcode ≠ .BitFieldUExtract then none
          else if lhsBfe.arg 1 ≠ .u32 16 ∨ lhsBfe.arg 2 ≠ .u32 16 then none
          else if rhsBfe.arg 1 ≠ .u32 0 ∨ rhsBfe.arg 2 ≠ .u32 16 then none
          else if (lhsBfe.arg 0).resolve ≠ (rhsBfe.arg 0).resolve then none
          else
            let factorA := lhsBfe.arg 0
            some (.inst (mkInst .IMul32 [factorA, factorB]))

/-- `FoldAdd<u32>`: pseudo-operation guard, commutative fold, add-zero
identity, then the XMAD multiply idiom. -/
def FoldAdd32 (inst : Inst) : Inst × FoldAct :=
  if inst.hasPseudoOp then (inst, .keep)
  else
    match FoldCommutative Value.u32Val (fun n => .u32 n) add32 inst with
    | (inst1, act, false) => (inst1, act)
    | (inst1, _, true) =>
      let rhs := inst1.arg 1
      if rhs.isImmediate ∧ rhs.u32Val = 0 then (inst1, .replace (inst1.arg 0))
      else
        match FoldXmadMultiply inst1 with
        | some v => (inst1, .replace v)
        | none => (inst1, .keep)

/-- `FoldAdd<u64>`: same as the 32-bit case without the XMAD idiom. -/
def FoldAdd64 (inst : Inst) : Inst × FoldAct :=
  if inst.hasPseudoOp then (inst, .keep)
  else
    match FoldCommutative Value.u64Val (fun n => .u64 n) add64 inst with
    | (inst1, act, false) => (inst1, act)
    | (inst1, _, true) =>
      let rhs := inst1.arg 1
      if rhs.isImmediate ∧ rhs.u64Val = 0 then (inst1, .replace (inst1.arg 0))
      else (inst1, .keep)

/-- The `equal_cbuf` closure of `FoldISub32`: both instructions are
`GetCbufU32` reads with equal slot and equal offset arguments. -/
def equalCbuf (a b : Inst) : Bool :=
  a.opcode == .GetCbufU32 && b.opcode == .GetCbufU32 &&
    a.arg 0 == b.arg 0 && a.arg 1 == b.arg 1

/-- `FoldISub32`: all-immediates subtraction, self-subtraction of one
constant-buffer read, and cancellation of an add-then-subtract of the
same constant-buffer read. -/
def FoldISub32 (inst : Inst) : Inst × FoldAct :=
  match FoldWhenAllImmediates inst
      (fun i => .ok (.u32 (sub32 (i.arg 0).u32Val (i.arg 1).u32Val))) with
  | .ok (i, act, true) => (i, act)
  | _ =>
    if (inst.arg 0).isImmediate ∨ (inst.arg 1).isImmediate then (inst, .keep)
    else
      let opA0 := (inst.arg 0).instRecursive
      let opB0 := (inst.arg 1).instRecursive
      if equalCbuf opA0 opB0 then (inst, .replace (.u32 0))
      else
        -- canonicalize local variables so an IAdd32 operand comes first
        let opA := if opB0.opcode = .IAdd32 then opB0 else opA0
        let opB := if opB0.opcode = .IAdd32 then opA0 else opB0
        if opB.opcode ≠ .GetCbufU32 then (inst, .keep)
        else if opA.opcode ≠ .IAdd32 then (inst, .keep)
        else
          let addOpA := if (opA.arg 1).isImmediate then opA.arg 1 else opA.arg 0
          let addOpB := if (opA.arg 1).isImmediate then opA.arg 0 else opA.arg 1
          if addOpB.isImmediate then (inst, .keep)
          else if equalCbuf addOpB.instRecursive opB then (inst, .replace addOpA)
          else (inst, .keep)

/-- `FoldSelect`: an immediate condition selects one branch value
directly. -/
def FoldSelect (inst : Inst) : Inst × FoldAct :=
  let cond := inst.arg 0
  if cond.isImmediate then
    (inst, .replace (if cond.u1Val then inst.arg 1 else inst.arg 2))
  else (inst, .keep)

/-- `FoldFPMul32`: cancels `attr * X / attr` down to `X` when contraction
is permitted and both the inner multiply's second operand and the
reciprocal's operand read the same shader input attribute. -/
def FoldFPMul32 (inst : Inst) : Inst × FoldAct :=
  if inst.noContraction then (inst, .keep)
  else
    let lhsValue := inst.arg 0
    let rhsValue := inst.arg 1
    if lhsValue.isImmediate ∨ rhsValue.isImmediate then (inst, .keep)
    else
      let lhsOp := lhsValue.instRecursive
      let rhsOp := rhsValue.instRecursive
      if lhsOp.opcode ≠ .FPMul32 ∨ rhsOp.opcode ≠ .FPRecip32 then (inst, .keep)
      else
        let recipSource := rhsOp.arg 0
        let lhsMulSource := (lhsOp.arg 1).resolve
        if recipSource.isImmediate ∨ lhsMulSource.isImmediate then (inst, .keep)
        else
          let attrA := recipSource.instRecursive
          let attrB := lhsMulSource.instRecursive
          if attrA.opcode ≠ .GetAttribute ∨ attrB.opcode ≠ .GetAttribute then
            (inst, .keep)
          else if (attrA.arg 0).attrVal = (attrB.arg 0).attrVal then
            (inst, .replace (lhsOp.arg 0))
          else (inst, .keep)

/-- `FoldLogicalAnd`: commutative fold, then identity/absorption with an
immediate second operand. -/
def FoldLogicalAnd (inst : Inst) : Inst × FoldAct :=
  match FoldCommutative Value.u1Val (fun b => .u1 b) (fun a b => a && b) inst with
  | (inst1, act, false) => (inst1, act)
  | (inst1, _, true) =>
    let rhs := inst1.arg 1
    if rhs.isImmediate then
      if rhs.u1Val then (inst1, .replace (inst1.arg 0))
      else (inst1, .replace (.u1 false))
    else (inst1, .keep)

/-- `FoldLogicalOr`: commutative fold, then identity/absorption with an
immediate second operand. -/
def FoldLogicalOr (inst : Inst) : Inst × FoldAct :=
  match FoldCommutative Value.u1Val (fun b => .u1 b) (fun a b => a || b) inst with
  | (inst1, act, false) => (inst1, act)
  | (inst1, _, true) =>
    let rhs := inst1.arg 1
    if rhs.isImmediate then
      if rhs.u1Val then (inst1, .replace (.u1 true))
      else (inst1, .replace (inst1.arg 0))
    else (inst1, .keep)

/-- `FoldLogicalNot`: immediate negation and double-negation
elimination. -/
def FoldLogicalNot (inst : Inst) : Inst × FoldAct :=
  let value := inst.arg 0
  if value.isImmediate then (inst, .replace (.u1 (! value.u1Val)))
  else
    let argInst := value.instRecursive
    if argInst.opcode = .LogicalNot then (inst, .replace (argInst.arg 0))
    else (inst, .keep)

/-- `FoldBitCast<BitCastF32U32, f32, u32>`: immediate bit reinterpretation,
reverse-cast cancellation, and the typed constant-buffer-read rewrite. -/
def FoldBitCastF32U32 (inst : Inst) : Inst × FoldAct :=
  let value := inst.arg 0
  if value.isImmediate then (inst, .replace (.f32 value.u32Val))
  else
    let argInst := value.instRecursive
    if argInst.opcode = .BitCastU32F32 then (inst, .replace (argInst.arg 0))
    else if argInst.opcode = .GetCbufU32 then
      (((inst.setOpcode .GetCbufF32).setArg 0 (argInst.arg 0)).setArg 1
        (argInst.arg 1), .keep)
    else (inst, .keep)

/-- `FoldBitCast<BitCastU32F32, u32, f32>`: immediate bit reinterpretation
and reverse-cast cancellation. -/
def FoldBitCastU32F32 (inst : Inst) : Inst × FoldAct :=
  let value := inst.arg 0
  if value.isImmediate then (inst, .replace (.u32 value.f32Val))
  else
    let argInst := value.instRecursive
    if argInst.opcode = .BitCastF32U32 then (inst, .replace (argInst.arg 0))
    else (inst, .keep)

/-- `FoldInverseFunc`: cancels an operation applied to its exact
inverse. -/
def FoldInverseFunc (inst : Inst) (reverse : Opcode) : Inst × FoldAct :=
  let value := inst.arg 0
  if value.isImmediate then (inst, .keep)
  else
    let argInst := value.instRecursive
    if argInst.opcode = reverse then (inst, .replace (argInst.arg 0))
    else (inst, .keep)

/-- `FoldBranchConditional`: removes a negation on the condition and swaps
the two branch targets; an immediate condition is explicitly left for a
later pass. -/
def FoldBranchConditional (inst : Inst) : Inst × FoldAct :=
  let cond := inst.arg 0
  if cond.isImmediate then (inst, .keep)
  else
    let condInst := cond.instRecursive
    if condInst.opcode = .LogicalNot then
      let trueLabel := inst.arg 1
      let falseLabel := inst.arg 2
      (((inst.setArg 0 (condInst.arg 0)).setArg 1 falseLabel).setArg 2
        trueLabel, .keep)
    else (inst, .keep)

/-- `FoldCompositeExtractImpl`: chases composite-insert producers of the
composite value (looking through `Identity`, as `InstRecursive` does); a
matching insert index yields the inserted value, a mismatching one
recurses into the insert's base, the matching construct opcode yields its
argument at the extracted index, and anything else gives up. -/
def FoldCompositeExtractImpl (insert cons : Opcode) (firstIndex : Nat) :
    Value → Option Value
  | .inst (.mk .Identity _ _ a0 _ _ _) =>
      FoldCompositeExtractImpl insert cons firstIndex a0
  | .inst (.mk op nc ps a0 a1 a2 a3) =>
      if op = cons then some ((Inst.mk op nc ps a0 a1 a2 a3).arg firstIndex)
      else if op ≠ insert then none
      else if ¬ a2.isImmediate then none
      else if firstIndex ≠ a2.u32Val then
        if a0.isImmediate then none
        else FoldCompositeExtractImpl insert cons firstIndex a0
      else some a1
  | _ => none

/-- `FoldCompositeExtract`: guards (non-immediate composite, immediate
index), then the chase; a successful chase replaces all uses. -/
def FoldCompositeExtract (inst : Inst) (cons insert : Opcode) :
    Inst × FoldAct :=
  let value1 := inst.arg 0
  let value2 := inst.arg 1
  if value1.isImmediate then (inst, .keep)
  else if ¬ value2.isImmediate then (inst, .keep)
  else
    match FoldCompositeExtractImpl insert cons value2.u32Val value1 with
    | none => (inst, .keep)
    | some r => (inst, .replace r)

/-- Error message of the `LogicError` thrown on an out-of-width immediate
unsigned bit-field extract. -/
def bfeUErrorMsg : String := "Undefined result in BitFieldUExtract"

/-- Error message of the `LogicError` thrown on an out-of-width immediate
signed bit-field extract. -/
def bfeSErrorMsg : String := "Undefined result in BitFieldSExtract"

/-- The `BitFieldUExtract` closure: throws when `shift + count` exceeds
32, otherwise computes `(base >> shift) & ((1 << count) - 1)`. -/
def bfeULambda (base shift count : Nat) : Except String Value :=
  if shift + count > 32 then .error bfeUErrorMsg
  else .ok (.u32 ((base >>> shift) &&& ((1 <<< count) - 1)))

/-- The `BitFieldSExtract` closure: throws when `shift + count` exceeds
32, otherwise left-shifts to position the sign bit and sign-preserving
right-shifts back. -/
def bfeSLambda (base shift count : Nat) : Except String Value :=
  if shift + count > 32 then .error bfeSErrorMsg
  else
    let leftShift := 32 - (shift + count)
    let shifted := (base <<< leftShift) % 2 ^ 32
    .ok (.u32 ((Int.fdiv (toS32 shifted) (2 ^ (32 - count)) % 2 ^ 32).toNat))

/-- The `ConstantPropagation` dispatcher: matches the opcode and applies
at most one folding rule; unrecognized opcodes are left untouched.  A
`LogicError` thrown by a bit-field closure aborts (modelled as
`Except.error`). -/
def ConstantPropagation (inst : Inst) : Except String (Inst × FoldAct) :=
  match inst.opcode with
  | .GetRegister => .ok (FoldGetRegister inst)
  | .GetPred => .ok (FoldGetPred inst)
  | .IAdd32 => .ok (FoldAdd32 inst)
  | .ISub32 => .ok (FoldISub32 inst)
  | .BitCastF32U32 => .ok (FoldBitCastF32U32 inst)
  | .BitCastU32F32 => .ok (FoldBitCastU32F32 inst)
  | .IAdd64 => .ok (FoldAdd64 inst)
  | .PackHalf2x16 => .ok (FoldInverseFunc inst .UnpackHalf2x16)
  | .UnpackHalf2x16 => .ok (FoldInverseFunc inst .PackHalf2x16)
  | .SelectU1 => .ok (FoldSelect inst)
  | .SelectU8 => .ok (FoldSelect inst)
  | .SelectU16 => .ok (FoldSelect inst)
  | .SelectU32 => .ok (FoldSelect inst)
  | .SelectU64 => .ok (FoldSelect inst)
  | .SelectF16 => .ok (FoldSelect inst)
  | .SelectF32 => .ok (FoldSelect inst)
  | .SelectF64 => .ok (FoldSelect inst)
  | .FPMul32 => .ok (FoldFPMul32 inst)
  | .LogicalAnd => .ok (FoldLogicalAnd inst)
  | .LogicalOr => .ok (FoldLogicalOr inst)
  | .LogicalNot => .ok (FoldLogicalNot inst)
  | .SLessThan => .ok (foldWhenAllImmTotal inst (fun i =>
      .u1 (toS32 (i.arg 0).u32Val < toS32 (i.arg 1).u32Val)))
  | .ULessThan => .ok (foldWhenAllImmTotal inst (fun i =>
      .u1 ((i.arg 0).u32Val < (i.arg 1).u32Val)))
  | .SLessThanEqual => .ok (foldWhenAllImmTotal inst (fun i =>
      .u1 (toS32 (i.arg 0).u32Val ≤ toS32 (i.arg 1).u32Val)))
  | .ULessThanEqual => .ok (foldWhenAllImmTotal inst (fun i =>
      .u1 ((i.arg 0).u32Val ≤ (i.arg 1).u32Val)))
  | .SGreaterThan => .ok (foldWhenAllImmTotal inst (fun i =>
      .u1 (toS32 (i.arg 0).u32Val > toS32 (i.arg 1).u32Val)))
  | .UGreaterThan => .ok (foldWhenAllImmTotal inst (fun i =>
      .u1 ((i.arg 0).u32Val > (i.arg 1).u32Val)))
  | .SGreaterThanEqual => .ok (foldWhenAllImmTotal inst (fun i =>
      .u1 (toS32 (i.arg 0).u32Val ≥ toS32 (i.arg 1).u32Val)))
  | .UGreaterThanEqual => .ok (foldWhenAllImmTotal inst (fun i =>
      .u1 ((i.arg 0).u32Val ≥ (i.arg 1).u32Val)))
  | .IEqual => .ok (foldWhenAllImmTotal inst (fun i =>
      .u1 ((i.arg 0).u32Val % 2 ^ 32 = (i.arg 1).u32Val % 2 ^ 32)))
  | .INotEqual => .ok (foldWhenAllImmTotal inst (fun i =>
      .u1 (¬ (i.arg 0).u32Val % 2 ^ 32 = (i.arg 1).u32Val % 2 ^ 32)))
  | .BitFieldUExtract =>
      match FoldWhenAllImmediates inst (fun i =>
        bfeULambda (i.arg 0).u32Val (i.arg 1).u32Val (i.arg 2).u32Val) with
      | .error e => .error e
      | .ok (i, act, _) => .ok (i, act)
  | .BitFieldSExtract =>
      match FoldWhenAllImmediates inst (fun i =>
        bfeSLambda (i.arg 0).u32Val (i.arg 1).u32Val (i.arg 2).u32Val) with
      | .error e => .error e
      | .ok (i, act, _) => .ok (i, act)
  | .BranchConditional => .ok (FoldBranchConditional inst)
  | .CompositeExtractF32x2 =>
      .ok (FoldCompositeExtract inst .CompositeConstructF32x2 .CompositeInsertF32x2)
  | .CompositeExtractF32x3 =>
      .ok (FoldCompositeExtract inst .CompositeConstructF32x3 .CompositeInsertF32x3)
  | .CompositeExtractF32x4 =>
      .ok (FoldCompositeExtract inst .CompositeConstructF32x4 .CompositeInsertF32x4)
  | .CompositeExtractF16x2 =>
      .ok (FoldCompositeExtract inst .CompositeConstructF16x2 .CompositeInsertF16x2)
  | .CompositeExtractF16x3 =>
      .ok (FoldCompositeExtract inst .CompositeConstructF16x3 .CompositeInsertF16x3)
  | .CompositeExtractF16x4 =>
      .ok (FoldCompositeExtract inst .CompositeConstructF16x4 .CompositeInsertF16x4)
  | _ => .ok (inst, .keep)

theorem isImmediate_inst_mk (op : Opcode) (nc ps : Bool) (a0 a1 a2 a3 : Value)
    (h : op ≠ .Identity) :
    Value.isImmediate (.inst (.mk op nc ps a0 a1 a2 a3)) = false := by
  cases op <;> first | rfl | exact absurd rfl h

theorem instRecursive_inst_mk (op : Opcode) (nc ps : Bool) (a0 a1 a2 a3 : Value)
    (h : op ≠ .Identity) :
    Value.instRecursive (.inst (.mk op nc ps a0 a1 a2 a3)) =
      .mk op nc ps a0 a1 a2 a3 := by
  cases op <;> first | rfl | exact absurd rfl h

theorem resolve_inst_mk (op : Opcode) (nc ps : Bool) (a0 a1 a2 a3 : Value)
    (h : op ≠ .Identity) :
    Value.resolve (.inst (.mk op nc ps a0 a1 a2 a3)) =
      .inst (.mk op nc ps a0 a1 a2 a3) := by
  cases op <;> first | rfl | exact absurd rfl h

/-- Claim C1: a `BitFieldUExtract` whose three arguments are immediate and
which has no associated pseudo-operation folds, when `shift + count ≤ 32`,
to the immediate `(base >>> shift) &&& ((1 <<< count) - 1)`, replacing all
uses; when `shift + count > 32` the pass raises the fatal logic error
instead of producing a value. -/
theorem bitFieldUExtract_fold_or_error (inst : Inst) (base shift count : Nat)
    (hop : inst.opcode = .BitFieldUExtract)
    (h0 : inst.arg 0 = .u32 base) (h1 : inst.arg 1 = .u32 shift)
    (h2 : inst.arg 2 = .u32 count) (hp : inst.hasPseudoOp = false) :
    (shift + count ≤ 32 →
      ConstantPropagation inst =
        .ok (inst, .replace (.u32 ((base >>> shift) &&& ((1 <<< count) - 1)))))
    ∧ (shift + count > 32 → ConstantPropagation inst = .error bfeUErrorMsg) := by
  obtain ⟨op, nc, ps, a0, a1, a2, a3⟩ := inst
  simp only [Inst.opcode] at hop
  simp only [Inst.arg] at h0 h1 h2
  simp only [Inst.hasPseudoOp] at hp
  subst hop h0 h1 h2 hp
  constructor
  · intro hle
    simp [ConstantPropagation, FoldWhenAllImmediates, Inst.areAllArgsImmediates,
      numArgsOf, Inst.opcode, Inst.arg, Inst.hasPseudoOp, Value.isImmediate,
      Value.u32Val, bfeULambda, Nat.not_lt.mpr hle, List.range_succ]
  · intro hgt
    simp [ConstantPropagation, FoldWhenAllImmediates, Inst.areAllArgsImmediates,
      numArgsOf, Inst.opcode, Inst.arg, Inst.hasPseudoOp, Value.isImmediate,
      Value.u32Val, bfeULambda, hgt, List.range_succ]

/-- Witness for claim C1 at concrete inputs: a successful extract and an
out-of-width extract that errors. -/
theorem bitFieldUExtract_fold_or_error_witness :
    ConstantPropagation (mkInst .BitFieldUExtract [.u32 2882343476, .u32 8, .u32 8]) =
      .ok (mkInst .BitFieldUExtract [.u32 2882343476, .u32 8, .u32 8],
        .replace (.u32 18))
    ∧ ConstantPropagation (mkInst .BitFieldUExtract [.u32 5, .u32 30, .u32 3]) =
      .error bfeUErrorMsg := by
  constructor
  · have h := (bitFieldUExtract_fold_or_error
      (mkInst .BitFieldUExtract [.u32 2882343476, .u32 8, .u32 8])
      2882343476 8 8 rfl rfl rfl rfl rfl).1 (by norm_num)
    have hval : (2882343476 >>> 8) &&& ((1 <<< 8) - 1) = 18 := by decide
    rw [h, hval]
  · exact (bitFieldUExtract_fold_or_error
      (mkInst .BitFieldUExtract [.u32 5, .u32 30, .u32 3])
      5 30 3 rfl rfl rfl rfl rfl).2 (by norm_num)

/-- Claim C5: the generic commutative binary folder.  Both operands
immediate: all uses are replaced by the computed immediate and the caller
is told not to attempt further idiom matches (`false`).  One operand
immediate with the other produced by a same-opcode instruction whose
second operand is immediate: the two constants are combined and the
operands become `(x, c1 op c2)` (both orientations).  Only the left
operand immediate with no such merge: the operands are swapped so the
immediate becomes the second operand. -/
theorem foldCommutative_cases {α : Type} (dec : Value → α) (enc : α → Value)
    (f : α → α → α) (inst : Inst) :
    ((inst.arg 0).isImmediate = true → (inst.arg 1).isImmediate = true →
      FoldCommutative dec enc f inst =
        (inst, .replace (enc (f (dec (inst.arg 0)) (dec (inst.arg 1)))), false))
    ∧ ((inst.arg 0).isImmediate = true → (inst.arg 1).isImmediate = false →
        (inst.arg 1).instRecursive.opcode = inst.opcode →
        ((inst.arg 1).instRecursive.arg 1).isImmediate = true →
      FoldCommutative dec enc f inst =
        ((inst.setArg 0 ((inst.arg 1).instRecursive.arg 0)).setArg 1
          (enc (f (dec (inst.arg 0)) (dec ((inst.arg 1).instRecursive.arg 1)))),
          .keep, true))
    ∧ ((inst.arg 0).isImmediate = false → (inst.arg 1).isImmediate = true →
        (inst.arg 0).instRecursive.opcode = inst.opcode →
        ((inst.arg 0).instRecursive.arg 1).isImmediate = true →
      FoldCommutative dec enc f inst =
        ((inst.setArg 0 ((inst.arg 0).instRecursive.arg 0)).setArg 1
          (enc (f (dec (inst.arg 1)) (dec ((inst.arg 0).instRecursive.arg 1)))),
          .keep, true))
    ∧ ((inst.arg 0).isImmediate = true → (inst.arg 1).isImmediate = false →
        ¬((inst.arg 1).instRecursive.opcode = inst.opcode ∧
          ((inst.arg 1).instRecursive.arg 1).isImmediate = true) →
      FoldCommutative dec enc f inst =
        ((inst.setArg 0 (inst.arg 1)).setArg 1 (inst.arg 0), .keep, true)) := by
  refine ⟨fun h0 h1 => ?_, fun h0 h1 hm1 hm2 => ?_, fun h0 h1 hm1 hm2 => ?_,
    fun h0 h1 hm => ?_⟩
  · simp [FoldCommutative, h0, h1]
  · simp [FoldCommutative, h0, h1, hm1, hm2]
  · simp [FoldCommutative, h0, h1, hm1, hm2]
  · simp only [FoldCommutative, h0, h1]
    simp [hm]

/-- Witness for claim C5 at concrete inputs: the 32-bit add instantiation
folding two immediates, merging a chained constant, and swap-normalizing. -/
theorem foldCommutative_cases_witness :
    FoldCommutative Value.u32Val (fun n => .u32 n) add32
        (mkInst .IAdd32 [.u32 10, .u32 20]) =
      (mkInst .IAdd32 [.u32 10, .u32 20], .replace (.u32 30), false)
    ∧ FoldCommutative Value.u32Val (fun n => .u32 n) add32
        (mkInst .IAdd32 [.u32 3,
          .inst (mkInst .IAdd32 [.inst (mkInst .GetRegister [.reg 7]), .u32 4])]) =
      (.mk .IAdd32 false false (.inst (mkInst .GetRegister [.reg 7])) (.u32 7)
        .void .void, .keep, true)
    ∧ FoldCommutative Value.u32Val (fun n => .u32 n) add32
        (mkInst .IAdd32 [.u32 3, .inst (mkInst .GetRegister [.reg 7])]) =
      (.mk .IAdd32 false false (.inst (mkInst .GetRegister [.reg 7])) (.u32 3)
        .void .void, .keep, true) := by
  refine ⟨?_, ?_, ?_⟩
  · have h := (foldCommutative_cases Value.u32Val (fun n => .u32 n) add32
      (mkInst .IAdd32 [.u32 10, .u32 20])).1 rfl rfl
    simpa [mkInst, Inst.arg, Value.u32Val, add32] using h
  · have h := ((foldCommutative_cases Value.u32Val (fun n => .u32 n) add32
      (mkInst .IAdd32 [.u32 3,
        .inst (mkInst .IAdd32 [.inst (mkInst .GetRegister [.reg 7]),
          .u32 4])])).2.1) rfl (by decide) (by decide) (by decide)
    have e : Value.instRecursive
        (.inst (mkInst .IAdd32 [.inst (mkInst .GetRegister [.reg 7]), .u32 4])) =
        mkInst .IAdd32 [.inst (mkInst .GetRegister [.reg 7]), .u32 4] := by decide
    rw [show ((mkInst .IAdd32 [.u32 3,
        .inst (mkInst .IAdd32 [.inst (mkInst .GetRegister [.reg 7]),
          .u32 4])]).arg 1) = .inst (mkInst .IAdd32
            [.inst (mkInst .GetRegister [.reg 7]), .u32 4]) from rfl, e] at h
    simpa [mkInst, Inst.arg, Inst.setArg, Value.u32Val, add32] using h
  · have h := ((foldCommutative_cases Value.u32Val (fun n => .u32 n) add32
      (mkInst .IAdd32 [.u32 3, .inst (mkInst .GetRegister [.reg 7])])).2.2.2)
        rfl (by decide) (by decide)
    simpa [mkInst, Inst.arg, Inst.setArg] using h

/-- Claim C7: an `ISub32` with no immediate operand whose two operands are
both `GetCbufU32` reads with equal slot and equal offset arguments folds
to the immediate `0`, replacing all uses. -/
theorem isub32_same_cbuf_zero (inst ca cbI : Inst)
    (hop : inst.opcode = .ISub32)
    (h0 : (inst.arg 0).isImmediate = false)
    (h1 : (inst.arg 1).isImmediate = false)
    (ha : (inst.arg 0).instRecursive = ca)
    (hb : (inst.arg 1).instRecursive = cbI)
    (hca : ca.opcode = .GetCbufU32) (hcb : cbI.opcode = .GetCbufU32)
    (hslot : ca.arg 0 = cbI.arg 0) (hoff : ca.arg 1 = cbI.arg 1) :
    ConstantPropagation inst = .ok (inst, .replace (.u32 0)) := by
  obtain ⟨op, nc, ps, a0, a1, a2, a3⟩ := inst
  obtain ⟨opa, nca, psa, x0, x1, x2, x3⟩ := ca
  obtain ⟨opb, ncb, psb, y0, y1, y2, y3⟩ := cbI
  simp only [Inst.opcode] at hop hca hcb
  simp only [Inst.arg] at h0 h1 ha hb hslot hoff
  subst hop hca hcb hslot hoff
  simp [ConstantPropagation, FoldISub32, FoldWhenAllImmediates,
    Inst.areAllArgsImmediates, numArgsOf, Inst.opcode, Inst.arg,
    List.range_succ, h0, h1, ha, hb, equalCbuf]

/-- Witness for claim C7: subtracting a constant-buffer read from an
identical read folds to zero. -/
theorem isub32_same_cbuf_zero_witness :
    ConstantPropagation (mkInst .ISub32
        [.inst (mkInst .GetCbufU32 [.u32 1, .u32 4]),
         .inst (mkInst .GetCbufU32 [.u32 1, .u32 4])]) =
      .ok (mkInst .ISub32
        [.inst (mkInst .GetCbufU32 [.u32 1, .u32 4]),
         .inst (mkInst .GetCbufU32 [.u32 1, .u32 4])], .replace (.u32 0)) :=
  isub32_same_cbuf_zero _ (mkInst .GetCbufU32 [.u32 1, .u32 4])
    (mkInst .GetCbufU32 [.u32 1, .u32 4]) rfl (by decide) (by decide)
    (by decide) (by decide) rfl rfl rfl rfl

/-- Claim C10: an `ISub32` in which exactly one operand is an immediate is
left completely unchanged (no operand rewrite, no use replacement); in
particular `ISub32(x, const 0)` is not simplified. -/
theorem isub32_single_imm_untouched (inst : Inst)
    (hop : inst.opcode = .ISub32)
    (h : (inst.arg 0).isImmediate ≠ (inst.arg 1).isImmediate) :
    ConstantPropagation inst = .ok (inst, .keep) := by
  obtain ⟨op, nc, ps, a0, a1, a2, a3⟩ := inst
  simp only [Inst.opcode] at hop
  subst hop
  simp only [Inst.arg] at h
  cases h0 : a0.isImmediate <;> cases h1 : a1.isImmediate <;>
    simp_all [ConstantPropagation, FoldISub32, FoldWhenAllImmediates,
      Inst.areAllArgsImmediates, numArgsOf, Inst.opcode, Inst.arg,
      List.range_succ]

/-- Witness for claim C10: `ISub32(x, const 0)` with non-immediate `x`
stays untouched. -/
theorem isub32_single_imm_untouched_witness :
    ConstantPropagation (mkInst .ISub32
        [.inst (mkInst .GetRegister [.reg 7]), .u32 0]) =
      .ok (mkInst .ISub32 [.inst (mkInst .GetRegister [.reg 7]), .u32 0],
        .keep) :=
  isub32_single_imm_untouched _ rfl (by decide)

/-- Claim C6: an `ISub32` with no immediate operand, one operand an
`IAdd32` of some value `X` with a constant-buffer read and the other
operand a read of the same constant-buffer (slot, offset) pair — in
either operand order, the add being canonicalized first — replaces all
uses of the subtract with `X`, for any `X`. -/
theorem isub32_add_cbuf_cancel (inst addT cbT c1 : Inst)
    (hop : inst.opcode = .ISub32)
    (h0 : (inst.arg 0).isImmediate = false)
    (h1 : (inst.arg 1).isImmediate = false)
    (horder : ((inst.arg 0).instRecursive = addT ∧
        (inst.arg 1).instRecursive = cbT) ∨
      ((inst.arg 0).instRecursive = cbT ∧ (inst.arg 1).instRecursive = addT))
    (hadd : addT.opcode = .IAdd32)
    (hcb : cbT.opcode = .GetCbufU32)
    (haddb : (addT.arg 1).isImmediate = false)
    (hc1 : (addT.arg 1).instRecursive = c1)
    (hc1op : c1.opcode = .GetCbufU32)
    (hslot : c1.arg 0 = cbT.arg 0) (hoff : c1.arg 1 = cbT.arg 1) :
    ConstantPropagation inst = .ok (inst, .replace (addT.arg 0)) := by
  obtain ⟨op, nc, ps, a0, a1, a2, a3⟩ := inst
  obtain ⟨opa, nca, psa, x0, x1, x2, x3⟩ := addT
  obtain ⟨opb, ncb, psb, y0, y1, y2, y3⟩ := cbT
  obtain ⟨opc, ncc, psc, z0, z1, z2, z3⟩ := c1
  simp only [Inst.opcode] at hop hadd hcb hc1op
  simp only [Inst.arg] at h0 h1 horder haddb hc1 hslot hoff ⊢
  subst hop hadd hcb hc1op hslot hoff
  rcases horder with ⟨ha, hb⟩ | ⟨ha, hb⟩ <;>
    simp [ConstantPropagation, FoldISub32, FoldWhenAllImmediates,
      Inst.areAllArgsImmediates, numArgsOf, Inst.opcode, Inst.arg,
      List.range_succ, h0, h1, ha, hb, haddb, hc1, equalCbuf]

/-- Witness for claim C6: `ISub32(IAdd32(X, cbuf), cbuf)` with the same
constant-buffer read on both sides folds to `X`. -/
theorem isub32_add_cbuf_cancel_witness :
    ConstantPropagation (mkInst .ISub32
        [.inst (mkInst .IAdd32 [.inst (mkInst .GetRegister [.reg 7]),
          .inst (mkInst .GetCbufU32 [.u32 1, .u32 4])]),
         .inst (mkInst .GetCbufU32 [.u32 1, .u32 4])]) =
      .ok (mkInst .ISub32
        [.inst (mkInst .IAdd32 [.inst (mkInst .GetRegister [.reg 7]),
          .inst (mkInst .GetCbufU32 [.u32 1, .u32 4])]),
         .inst (mkInst .GetCbufU32 [.u32 1, .u32 4])],
        .replace (.inst (mkInst .GetRegister [.reg 7]))) :=
  isub32_add_cbuf_cancel _
    (mkInst .IAdd32 [.inst (mkInst .GetRegister [.reg 7]),
      .inst (mkInst .GetCbufU32 [.u32 1, .u32 4])])
    (mkInst .GetCbufU32 [.u32 1, .u32 4])
    (mkInst .GetCbufU32 [.u32 1, .u32 4])
    rfl (by decide) (by decide) (.inl ⟨by decide, by decide⟩) rfl rfl
    (by decide) (by decide) rfl rfl rfl

/-- Claim C9: after the commutative fold's canonicalization, a
`LogicalAnd` whose second operand is an immediate replaces all uses with
its first operand when the immediate is `true` and with the immediate
`false` when it is `false`; symmetrically, a `LogicalOr` replaces uses
with the immediate `true` when it is `true` and with its first operand
when it is `false`. -/
theorem logicalAndOr_imm_second_operand (instA instO i1 j1 : Inst)
    (a b : FoldAct)
    (hopA : instA.opcode = .LogicalAnd)
    (hA : FoldCommutative Value.u1Val (fun x => .u1 x) (fun x y => x && y)
      instA = (i1, a, true))
    (hAi : (i1.arg 1).isImmediate = true)
    (hopO : instO.opcode = .LogicalOr)
    (hO : FoldCommutative Value.u1Val (fun x => .u1 x) (fun x y => x || y)
      instO = (j1, b, true))
    (hOi : (j1.arg 1).isImmediate = true) :
    ConstantPropagation instA =
      .ok (i1, .replace (if (i1.arg 1).u1Val then i1.arg 0 else .u1 false))
    ∧ ConstantPropagation instO =
      .ok (j1, .replace (if (j1.arg 1).u1Val then .u1 true else j1.arg 0)) := by
  constructor
  · obtain ⟨op, nc, ps, a0, a1, a2, a3⟩ := instA
    simp only [Inst.opcode] at hopA
    subst hopA
    simp only [ConstantPropagation, Inst.opcode, FoldLogicalAnd, hA, hAi]
    cases hv : (i1.arg 1).u1Val <;> simp [hA, hAi, hv]
  · obtain ⟨op, nc, ps, a0, a1, a2, a3⟩ := instO
    simp only [Inst.opcode] at hopO
    subst hopO
    simp only [ConstantPropagation, Inst.opcode, FoldLogicalOr, hO, hOi]
    cases hv : (j1.arg 1).u1Val <;> simp [hO, hOi, hv]

/-- Witness for claim C9: `LogicalAnd(x, const true)` folds to `x` and
`LogicalOr(x, const false)` folds to `x`, with non-immediate `x`. -/
theorem logicalAndOr_imm_second_operand_witness :
    ConstantPropagation (mkInst .LogicalAnd
        [.inst (mkInst .GetPred [.pred 2]), .u1 true]) =
      .ok (mkInst .LogicalAnd [.inst (mkInst .GetPred [.pred 2]), .u1 true],
        .replace (.inst (mkInst .GetPred [.pred 2])))
    ∧ ConstantPropagation (mkInst .LogicalOr
        [.inst (mkInst .GetPred [.pred 2]), .u1 false]) =
      .ok (mkInst .LogicalOr [.inst (mkInst .GetPred [.pred 2]), .u1 false],
        .replace (.inst (mkInst .GetPred [.pred 2]))) := by
  have h := logicalAndOr_imm_second_operand
    (mkInst .LogicalAnd [.inst (mkInst .GetPred [.pred 2]), .u1 true])
    (mkInst .LogicalOr [.inst (mkInst .GetPred [.pred 2]), .u1 false])
    (mkInst .LogicalAnd [.inst (mkInst .GetPred [.pred 2]), .u1 true])
    (mkInst .LogicalOr [.inst (mkInst .GetPred [.pred 2]), .u1 false])
    .keep .keep rfl (by decide) (by decide) rfl (by decide) (by decide)
  obtain ⟨h1, h2⟩ := h
  constructor
  · rw [h1]
    simp [mkInst, Inst.arg, Value.u1Val]
  · rw [h2]
    simp [mkInst, Inst.arg, Value.u1Val]

/-- Shared first factor of the concrete XMAD pattern used below. -/
def xmadFactorA : Value := .inst (mkInst .GetRegister [.reg 3])

/-- Shared second factor of the concrete XMAD pattern used below. -/
def xmadFactorB : Value := .inst (mkInst .GetRegister [.reg 4])

/-- Low 16-bit extract of the shared factor. -/
def xmadRbfe : Inst := mkInst .BitFieldUExtract [xmadFactorA, .u32 0, .u32 16]

/-- High 16-bit extract of the shared factor. -/
def xmadLbfe : Inst := mkInst .BitFieldUExtract [xmadFactorA, .u32 16, .u32 16]

/-- Low-half partial product. -/
def xmadRmul : Inst := mkInst .IMul32 [.inst xmadRbfe, xmadFactorB]

/-- High-half partial product. -/
def xmadLmul : Inst := mkInst .IMul32 [.inst xmadLbfe, xmadFactorB]

/-- The 16-bit left shift of the high-half product. -/
def xmadShl : Inst := mkInst .ShiftLeftLogical32 [.inst xmadLmul, .u32 16]

/-- The final add of the XMAD pattern, carrying an associated
pseudo-operation. -/
def xmadAddPseudo : Inst :=
  .mk .IAdd32 false true (.inst xmadShl) (.inst xmadRmul) .void .void

/-- Counterexample to claim C2 as stated: an `IAdd32` whose operand graph
matches the six-instruction XMAD pattern exactly (shift 16, offsets 16/0,
widths 16/16, shared resolved factors) but which carries an associated
pseudo-operation is left completely unchanged — the pass does not replace
its uses with a multiply. -/
theorem iadd32_xmad_pseudo_counterexample :
    xmadAddPseudo.opcode = .IAdd32
    ∧ xmadAddPseudo.arg 0 = .inst xmadShl
    ∧ xmadAddPseudo.arg 1 = .inst xmadRmul
    ∧ xmadShl.opcode = .ShiftLeftLogical32 ∧ xmadShl.arg 1 = .u32 16
    ∧ xmadShl.arg 0 = .inst xmadLmul
    ∧ xmadLmul.opcode = .IMul32 ∧ xmadRmul.opcode = .IMul32
    ∧ (xmadLmul.arg 1).resolve = (xmadRmul.arg 1).resolve
    ∧ xmadLmul.arg 0 = .inst xmadLbfe ∧ xmadRmul.arg 0 = .inst xmadRbfe
    ∧ xmadLbfe.opcode = .BitFieldUExtract
    ∧ xmadRbfe.opcode = .BitFieldUExtract
    ∧ xmadLbfe.arg 1 = .u32 16 ∧ xmadLbfe.arg 2 = .u32 16
    ∧ xmadRbfe.arg 1 = .u32 0 ∧ xmadRbfe.arg 2 = .u32 16
    ∧ (xmadLbfe.arg 0).resolve = (xmadRbfe.arg 0).resolve
    ∧ ConstantPropagation xmadAddPseudo = .ok (xmadAddPseudo, .keep) := by
  decide

/-- Claim C2 (amended: the add must also carry no associated
pseudo-operation).  First conjunct: an `IAdd32` without pseudo-operation
whose operand graph matches the six-instruction XMAD pattern exactly has
all its uses replaced by a newly emitted 32-bit multiply of the two
shared factors.  Second conjunct: any deviation in the shift amount,
field offsets, or field widths from the literals 16/0/16/16 leaves the
add unfolded. -/
theorem iadd32_xmad_fold :
    (∀ (inst lshl lmul rmul lbfe rbfe : Inst),
      inst.opcode = .IAdd32 → inst.hasPseudoOp = false →
      inst.arg 0 = .inst lshl → inst.arg 1 = .inst rmul →
      lshl.opcode = .ShiftLeftLogical32 → lshl.arg 1 = .u32 16 →
      lshl.arg 0 = .inst lmul →
      lmul.opcode = .IMul32 → rmul.opcode = .IMul32 →
      (lmul.arg 1).resolve = (rmul.arg 1).resolve →
      lmul.arg 0 = .inst lbfe → rmul.arg 0 = .inst rbfe →
      lbfe.opcode = .BitFieldUExtract → rbfe.opcode = .BitFieldUExtract →
      lbfe.arg 1 = .u32 16 → lbfe.arg 2 = .u32 16 →
      rbfe.arg 1 = .u32 0 → rbfe.arg 2 = .u32 16 →
      (lbfe.arg 0).resolve = (rbfe.arg 0).resolve →
      ConstantPropagation inst =
        .ok (inst, .replace (.inst (mkInst .IMul32 [lbfe.arg 0, lmul.arg 1]))))
    ∧ (∀ (inst lshl lmul rmul lbfe rbfe : Inst) (s o1 w1 o2 w2 : Nat),
      inst.opcode = .IAdd32 → inst.hasPseudoOp = false →
      inst.arg 0 = .inst lshl → inst.arg 1 = .inst rmul →
      lshl.opcode = .ShiftLeftLogical32 → lshl.arg 1 = .u32 s →
      lshl.arg 0 = .inst lmul →
      lmul.opcode = .IMul32 → rmul.opcode = .IMul32 →
      (lmul.arg 1).resolve = (rmul.arg 1).resolve →
      lmul.arg 0 = .inst lbfe → rmul.arg 0 = .inst rbfe →
      lbfe.opcode = .BitFieldUExtract → rbfe.opcode = .BitFieldUExtract →
      lbfe.arg 1 = .u32 o1 → lbfe.arg 2 = .u32 w1 →
      rbfe.arg 1 = .u32 o2 → rbfe.arg 2 = .u32 w2 →
      (lbfe.arg 0).resolve = (rbfe.arg 0).resolve →
      ¬(s = 16 ∧ o1 = 16 ∧ w1 = 16 ∧ o2 = 0 ∧ w2 = 16) →
      ConstantPropagation inst = .ok (inst, .keep)) := by
  constructor
  · intro inst lshl lmul rmul lbfe rbfe hop hps h0 h1 hshl hshl1 hshl0 hlm hrm
      hfb hlm0 hrm0 hlb hrb hlb1 hlb2 hrb1 hrb2 hfa
    obtain ⟨op, nc, ps, a0, a1, a2, a3⟩ := inst
    obtain ⟨opS, ncS, psS, s0, s1, s2, s3⟩ := lshl
    obtain ⟨opL, ncL, psL, l0, l1, l2, l3⟩ := lmul
    obtain ⟨opR, ncR, psR, r0, r1, r2, r3⟩ := rmul
    obtain ⟨opLB, ncLB, psLB, lb0, lb1, lb2, lb3⟩ := lbfe
    obtain ⟨opRB, ncRB, psRB, rb0, rb1, rb2, rb3⟩ := rbfe
    simp only [Inst.opcode] at hop hshl hlm hrm hlb hrb
    simp only [Inst.hasPseudoOp] at hps
    simp only [Inst.arg] at h0 h1 hshl1 hshl0 hfb hlm0 hrm0 hlb1 hlb2 hrb1 hrb2 hfa ⊢
    subst hop hps h0 h1 hshl hshl1 hshl0 hlm hrm hlm0 hrm0 hlb hrb hlb1 hlb2 hrb1 hrb2
    simp [ConstantPropagation, Inst.opcode, FoldAdd32, FoldCommutative,
      FoldXmadMultiply, Value.isImmediate, Value.instRecursive, Inst.arg,
      Inst.hasPseudoOp, hfb, hfa]
  · intro inst lshl lmul rmul lbfe rbfe s o1 w1 o2 w2 hop hps h0 h1 hshl
      hshl1 hshl0 hlm hrm hfb hlm0 hrm0 hlb hrb hlb1 hlb2 hrb1 hrb2 hfa hdev
    obtain ⟨op, nc, ps, a0, a1, a2, a3⟩ := inst
    obtain ⟨opS, ncS, psS, s0, s1, s2, s3⟩ := lshl
    obtain ⟨opL, ncL, psL, l0, l1, l2, l3⟩ := lmul
    obtain ⟨opR, ncR, psR, r0, r1, r2, r3⟩ := rmul
    obtain ⟨opLB, ncLB, psLB, lb0, lb1, lb2, lb3⟩ := lbfe
    obtain ⟨opRB, ncRB, psRB, rb0, rb1, rb2, rb3⟩ := rbfe
    simp only [Inst.opcode] at hop hshl hlm hrm hlb hrb
    simp only [Inst.hasPseudoOp] at hps
    simp only [Inst.arg] at h0 h1 hshl1 hshl0 hfb hlm0 hrm0 hlb1 hlb2 hrb1 hrb2 hfa ⊢
    subst hop hps h0 h1 hshl hshl1 hshl0 hlm hrm hlm0 hrm0 hlb hrb hlb1 hlb2 hrb1 hrb2
    rcases eq_or_ne s 16 with hs | hs
    · subst hs
      rcases eq_or_ne o1 16 with ho1 | ho1
      · subst ho1
        rcases eq_or_ne w1 16 with hw1 | hw1
        · subst hw1
          rcases eq_or_ne o2 0 with ho2 | ho2
          · subst ho2
            rcases eq_or_ne w2 16 with hw2 | hw2
            · exact absurd ⟨rfl, rfl, rfl, rfl, hw2⟩ hdev
            · simp [ConstantPropagation, Inst.opcode, FoldAdd32,
                FoldCommutative, FoldXmadMultiply, Value.isImmediate,
                Value.instRecursive, Inst.arg, Inst.hasPseudoOp, hfb, hfa, hw2]
          · simp [ConstantPropagation, Inst.opcode, FoldAdd32,
              FoldCommutative, FoldXmadMultiply, Value.isImmediate,
              Value.instRecursive, Inst.arg, Inst.hasPseudoOp, hfb, hfa, ho2]
        · simp [ConstantPropagation, Inst.opcode, FoldAdd32, FoldCommutative,
            FoldXmadMultiply, Value.isImmediate, Value.instRecursive,
            Inst.arg, Inst.hasPseudoOp, hfb, hfa, hw1]
      · simp [ConstantPropagation, Inst.opcode, FoldAdd32, FoldCommutative,
          FoldXmadMultiply, Value.isImmediate, Value.instRecursive, Inst.arg,
          Inst.hasPseudoOp, hfb, hfa, ho1]
    · simp [ConstantPropagation, Inst.opcode, FoldAdd32, FoldCommutative,
        FoldXmadMultiply, Value.isImmediate, Value.instRecursive, Inst.arg,
        Inst.hasPseudoOp, hfb, hfa, hs]

/-- Witness for (amended) claim C2: the concrete XMAD pattern without a
pseudo-operation folds to one 32-bit multiply of the shared factors. -/
theorem iadd32_xmad_fold_witness :
    ConstantPropagation (mkInst .IAdd32 [.inst xmadShl, .inst xmadRmul]) =
      .ok (mkInst .IAdd32 [.inst xmadShl, .inst xmadRmul],
        .replace (.inst (mkInst .IMul32 [xmadFactorA, xmadFactorB]))) := by
  have h := iadd32_xmad_fold.1
    (mkInst .IAdd32 [.inst xmadShl, .inst xmadRmul])
    xmadShl xmadLmul xmadRmul xmadLbfe xmadRbfe
    rfl rfl rfl rfl rfl rfl rfl rfl rfl (by decide) rfl rfl rfl rfl rfl rfl
    rfl rfl (by decide)
  simpa [xmadLbfe, xmadLmul, mkInst, Inst.arg] using h

/-- A shader-input attribute read used by the FPMul32 examples. -/
def attrRead : Inst := mkInst .GetAttribute [.attr 3]

/-- A non-immediate value that is not an attribute read. -/
def nonAttrX : Value := .inst (mkInst .GetRegister [.reg 5])

/-- Inner multiply with the attribute read as FIRST operand, as claim C3
positions it: `mul(attrA, X)`. -/
def innerMulAttrFirst : Inst := mkInst .FPMul32 [.inst attrRead, nonAttrX]

/-- Reciprocal of a read of the same attribute. -/
def recipAttr : Inst := mkInst .FPRecip32 [.inst attrRead]

/-- Outer multiply `mul(mul(attrA, X), recip(attrB))` of claim C3. -/
def outerMulAttrFirst : Inst :=
  mkInst .FPMul32 [.inst innerMulAttrFirst, .inst recipAttr]

/-- Counterexample to claim C3 as stated: an `FPMul32` with the
no-contraction flag clear, non-immediate operands, left operand the
multiply `mul(attrA, X)` (attribute read first), right operand
`recip(attrB)` with `attrA` and `attrB` reads of the same attribute, is
left unchanged by the pass — it is not replaced by `X`.  The code keys on
the inner multiply's SECOND operand as the attribute and replaces with
its FIRST operand. -/
theorem fpmul32_recip_counterexample :
    outerMulAttrFirst.opcode = .FPMul32
    ∧ outerMulAttrFirst.noContraction = false
    ∧ outerMulAttrFirst.arg 0 = .inst innerMulAttrFirst
    ∧ outerMulAttrFirst.arg 1 = .inst recipAttr
    ∧ innerMulAttrFirst.opcode = .FPMul32
    ∧ recipAttr.opcode = .FPRecip32
    ∧ innerMulAttrFirst.arg 0 = .inst attrRead
    ∧ innerMulAttrFirst.arg 1 = nonAttrX
    ∧ recipAttr.arg 0 = .inst attrRead
    ∧ attrRead.opcode = .GetAttribute
    ∧ (nonAttrX.instRecursive).opcode ≠ .GetAttribute
    ∧ ConstantPropagation outerMulAttrFirst =
        .ok (outerMulAttrFirst, .keep) := by
  decide

/-- Claim C3 (amended: in the idiom `mul(mul(X, attrA), recip(attrB))`
the cancelled attribute read is the inner multiply's SECOND operand — as
resolved — and the replacement is the inner multiply's FIRST operand
`X`).  First conjunct: the fold fires and replaces all uses with `X`.
Second conjunct: with the no-contraction flag set the instruction is
left unchanged.  Third conjunct: when the two attribute reads name
different attributes the instruction is left unchanged. -/
theorem fpmul32_recip_cancel :
    (∀ (inst lhsOp rhsOp aA aB : Inst),
      inst.opcode = .FPMul32 → inst.noContraction = false →
      inst.arg 0 = .inst lhsOp → inst.arg 1 = .inst rhsOp →
      lhsOp.opcode = .FPMul32 → rhsOp.opcode = .FPRecip32 →
      rhsOp.arg 0 = .inst aA → (lhsOp.arg 1).resolve = .inst aB →
      aA.opcode = .GetAttribute → aB.opcode = .GetAttribute →
      (aA.arg 0).attrVal = (aB.arg 0).attrVal →
      ConstantPropagation inst = .ok (inst, .replace (lhsOp.arg 0)))
    ∧ (∀ inst : Inst, inst.opcode = .FPMul32 → inst.noContraction = true →
      ConstantPropagation inst = .ok (inst, .keep))
    ∧ (∀ (inst lhsOp rhsOp aA aB : Inst),
      inst.opcode = .FPMul32 → inst.noContraction = false →
      inst.arg 0 = .inst lhsOp → inst.arg 1 = .inst rhsOp →
      lhsOp.opcode = .FPMul32 → rhsOp.opcode = .FPRecip32 →
      rhsOp.arg 0 = .inst aA → (lhsOp.arg 1).resolve = .inst aB →
      aA.opcode = .GetAttribute → aB.opcode = .GetAttribute →
      (aA.arg 0).attrVal ≠ (aB.arg 0).attrVal →
      ConstantPropagation inst = .ok (inst, .keep)) := by
  refine ⟨?_, ?_, ?_⟩
  · intro inst lhsOp rhsOp aA aB hop hnc h0 h1 hl hr hra hlb haA haB heq
    obtain ⟨op, nc, ps, a0, a1, a2, a3⟩ := inst
    obtain ⟨opL, ncL, psL, l0, l1, l2, l3⟩ := lhsOp
    obtain ⟨opR, ncR, psR, r0, r1, r2, r3⟩ := rhsOp
    obtain ⟨opA, ncA, psA, x0, x1, x2, x3⟩ := aA
    obtain ⟨opB, ncB, psB, y0, y1, y2, y3⟩ := aB
    simp only [Inst.opcode] at hop hl hr haA haB
    simp only [Inst.noContraction] at hnc
    simp only [Inst.arg] at h0 h1 hra hlb heq ⊢
    subst hop hnc h0 h1 hl hr hra haA haB
    simp [ConstantPropagation, Inst.opcode, FoldFPMul32, Value.isImmediate,
      Value.instRecursive, Inst.arg, Inst.noContraction, hlb, heq]
  · intro inst hop hnc
    obtain ⟨op, nc, ps, a0, a1, a2, a3⟩ := inst
    simp only [Inst.opcode] at hop
    simp only [Inst.noContraction] at hnc
    subst hop hnc
    simp [ConstantPropagation, Inst.opcode, FoldFPMul32, Inst.noContraction]
  · intro inst lhsOp rhsOp aA aB hop hnc h0 h1 hl hr hra hlb haA haB hne
    obtain ⟨op, nc, ps, a0, a1, a2, a3⟩ := inst
    obtain ⟨opL, ncL, psL, l0, l1, l2, l3⟩ := lhsOp
    obtain ⟨opR, ncR, psR, r0, r1, r2, r3⟩ := rhsOp
    obtain ⟨opA, ncA, psA, x0, x1, x2, x3⟩ := aA
    obtain ⟨opB, ncB, psB, y0, y1, y2, y3⟩ := aB
    simp only [Inst.opcode] at hop hl hr haA haB
    simp only [Inst.noContraction] at hnc
    simp only [Inst.arg] at h0 h1 hra hlb hne ⊢
    subst hop hnc h0 h1 hl hr hra haA haB
    simp [ConstantPropagation, Inst.opcode, FoldFPMul32, Value.isImmediate,
      Value.instRecursive, Inst.arg, Inst.noContraction, hlb, hne]

/-- Witness for (amended) claim C3: `mul(mul(X, attr), recip(attr))`
with the same attribute folds to `X`. -/
theorem fpmul32_recip_cancel_witness :
    ConstantPropagation (mkInst .FPMul32
        [.inst (mkInst .FPMul32 [nonAttrX, .inst attrRead]),
         .inst recipAttr]) =
      .ok (mkInst .FPMul32
        [.inst (mkInst .FPMul32 [nonAttrX, .inst attrRead]),
         .inst recipAttr], .replace nonAttrX) := by
  have h := fpmul32_recip_cancel.1
    (mkInst .FPMul32 [.inst (mkInst .FPMul32 [nonAttrX, .inst attrRead]),
      .inst recipAttr])
    (mkInst .FPMul32 [nonAttrX, .inst attrRead]) recipAttr attrRead attrRead
    rfl rfl rfl rfl rfl rfl rfl (by decide) rfl rfl rfl
  simpa [mkInst, Inst.arg] using h

/-- An `ISub32` carrying an associated pseudo-operation whose operands are
two identical constant-buffer reads. -/
def subPseudoCbuf : Inst :=
  .mk .ISub32 false true (.inst (mkInst .GetCbufU32 [.u32 1, .u32 4]))
    (.inst (mkInst .GetCbufU32 [.u32 1, .u32 4])) .void .void

/-- Counterexample to claim C4 as stated: an instruction with an
associated pseudo-operation CAN have its whole result replaced — the
`ISub32` constant-buffer cancellation path performs `ReplaceUsesWith 0`
without consulting the pseudo-operation bit. -/
theorem pseudoOp_replaced_counterexample :
    subPseudoCbuf.hasPseudoOp = true
    ∧ ConstantPropagation subPseudoCbuf =
        .ok (subPseudoCbuf, .replace (.u32 0)) := by
  decide

/-- Claim C4 (amended): the pseudo-operation guard protects an
instruction from whole-result replacement only in the folds that test
it — the generic all-immediates evaluator (the comparison and bit-field
rules, and `ISub32`'s all-immediate path) and the `IAdd32`/`IAdd64`
folds.  For those opcodes an instruction with an associated
pseudo-operation is left completely unchanged; other rules (`ISub32`'s
constant-buffer cancellations, the logical AND/OR folds, selects,
composite extracts, ...) may replace its uses regardless of the flag. -/
theorem pseudoOp_guarded_folds (inst : Inst)
    (hps : inst.hasPseudoOp = true)
    (hop : inst.opcode ∈ [Opcode.IAdd32, .IAdd64, .SLessThan, .ULessThan,
      .SLessThanEqual, .ULessThanEqual, .SGreaterThan, .UGreaterThan,
      .SGreaterThanEqual, .UGreaterThanEqual, .IEqual, .INotEqual,
      .BitFieldUExtract, .BitFieldSExtract]) :
    ConstantPropagation inst = .ok (inst, .keep) := by
  obtain ⟨op, nc, ps, a0, a1, a2, a3⟩ := inst
  simp only [Inst.hasPseudoOp] at hps
  simp only [Inst.opcode] at hop
  subst hps
  fin_cases hop <;>
    simp [ConstantPropagation, Inst.opcode, FoldAdd32, FoldAdd64,
      foldWhenAllImmTotal, FoldWhenAllImmediates, Inst.hasPseudoOp]

/-- Witness for (amended) claim C4: an all-immediate `IAdd32` carrying a
pseudo-operation is left untouched. -/
theorem pseudoOp_guarded_folds_witness :
    ConstantPropagation (.mk .IAdd32 false true (.u32 1) (.u32 2) .void .void) =
      .ok (.mk .IAdd32 false true (.u32 1) (.u32 2) .void .void, .keep) :=
  pseudoOp_guarded_folds _ rfl (by decide)

theorem fceImpl_inst (ins cons : Opcode) (idx : Nat) (op : Opcode)
    (nc ps : Bool) (a0 a1 a2 a3 : Value) (h : op ≠ .Identity) :
    FoldCompositeExtractImpl ins cons idx (.inst (.mk op nc ps a0 a1 a2 a3)) =
      (if op = cons then some ((Inst.mk op nc ps a0 a1 a2 a3).arg idx)
       else if op ≠ ins then none
       else if ¬ a2.isImmediate then none
       else if idx ≠ a2.u32Val then
         if a0.isImmediate then none
         else FoldCompositeExtractImpl ins cons idx a0
       else some a1) := by
  cases op <;> first | rfl | exact absurd rfl h

/-- Claim C8: composite-extract folding.  Conjuncts 1-6: the dispatcher
routes each of the six extract opcodes (float32/float16, 2/3/4 lanes) to
the chase with its matching construct/insert opcode pair.  Conjuncts 7-9:
with a non-immediate composite operand and an immediate index the fold
replaces all uses exactly when the chase succeeds, and it makes no change
when the composite operand is immediate or the index operand is not.
Conjuncts 10-15: the chase itself — reaching the matching construct
yields its argument at the extracted index; an insert whose immediate
target index equals the extracted index yields the inserted value
regardless of the base composite; a different index recurses into the
insert's base; an immediate base composite, a non-matching opcode, or a
non-immediate insert index gives up. -/
theorem compositeExtract_chase :
    (∀ inst : Inst, inst.opcode = .CompositeExtractF32x2 →
      ConstantPropagation inst =
        .ok (FoldCompositeExtract inst .CompositeConstructF32x2
          .CompositeInsertF32x2))
    ∧ (∀ inst : Inst, inst.opcode = .CompositeExtractF32x3 →
      ConstantPropagation inst =
        .ok (FoldCompositeExtract inst .CompositeConstructF32x3
          .CompositeInsertF32x3))
    ∧ (∀ inst : Inst, inst.opcode = .CompositeExtractF32x4 →
      ConstantPropagation inst =
        .ok (FoldCompositeExtract inst .CompositeConstructF32x4
          .CompositeInsertF32x4))
    ∧ (∀ inst : Inst, inst.opcode = .CompositeExtractF16x2 →
      ConstantPropagation inst =
        .ok (FoldCompositeExtract inst .CompositeConstructF16x2
          .CompositeInsertF16x2))
    ∧ (∀ inst : Inst, inst.opcode = .CompositeExtractF16x3 →
      ConstantPropagation inst =
        .ok (FoldCompositeExtract inst .CompositeConstructF16x3
          .CompositeInsertF16x3))
    ∧ (∀ inst : Inst, inst.opcode = .CompositeExtractF16x4 →
      ConstantPropagation inst =
        .ok (FoldCompositeExtract inst .CompositeConstructF16x4
          .CompositeInsertF16x4))
    ∧ (∀ (inst : Inst) (cons ins : Opcode),
      (inst.arg 0).isImmediate = false → (inst.arg 1).isImmediate = true →
      FoldCompositeExtract inst cons ins =
        (inst, match FoldCompositeExtractImpl ins cons ((inst.arg 1).u32Val)
            (inst.arg 0) with
          | none => .keep
          | some r => .replace r))
    ∧ (∀ (inst : Inst) (cons ins : Opcode), (inst.arg 0).isImmediate = true →
      FoldCompositeExtract inst cons ins = (inst, .keep))
    ∧ (∀ (inst : Inst) (cons ins : Opcode), (inst.arg 1).isImmediate = false →
      FoldCompositeExtract inst cons ins = (inst, .keep))
    ∧ (∀ (ins cons : Opcode) (idx : Nat) (i : Inst),
      i.opcode ≠ .Identity → i.opcode = cons →
      FoldCompositeExtractImpl ins cons idx (.inst i) = some (i.arg idx))
    ∧ (∀ (ins cons : Opcode) (idx : Nat) (i : Inst),
      i.opcode ≠ .Identity → i.opcode ≠ cons → i.opcode = ins →
      (i.arg 2).isImmediate = true → idx = (i.arg 2).u32Val →
      FoldCompositeExtractImpl ins cons idx (.inst i) = some (i.arg 1))
    ∧ (∀ (ins cons : Opcode) (idx : Nat) (i : Inst),
      i.opcode ≠ .Identity → i.opcode ≠ cons → i.opcode = ins →
      (i.arg 2).isImmediate = true → idx ≠ (i.arg 2).u32Val →
      (i.arg 0).isImmediate = false →
      FoldCompositeExtractImpl ins cons idx (.inst i) =
        FoldCompositeExtractImpl ins cons idx (i.arg 0))
    ∧ (∀ (ins cons : Opcode) (idx : Nat) (i : Inst),
      i.opcode ≠ .Identity → i.opcode ≠ cons → i.opcode = ins →
      (i.arg 2).isImmediate = true → idx ≠ (i.arg 2).u32Val →
      (i.arg 0).isImmediate = true →
      FoldCompositeExtractImpl ins cons idx (.inst i) = none)
    ∧ (∀ (ins cons : Opcode) (idx : Nat) (i : Inst),
      i.opcode ≠ .Identity → i.opcode ≠ cons → i.opcode = ins →
      (i.arg 2).isImmediate = false →
      FoldCompositeExtractImpl ins cons idx (.inst i) = none)
    ∧ (∀ (ins cons : Opcode) (idx : Nat) (i : Inst),
      i.opcode ≠ .Identity → i.opcode ≠ cons → i.opcode ≠ ins →
      FoldCompositeExtractImpl ins cons idx (.inst i) = none) := by
  refine ⟨?_, ?_, ?_, ?_, ?_, ?_, ?_, ?_, ?_, ?_, ?_, ?_, ?_, ?_, ?_⟩
  · intro inst hop
    obtain ⟨op, nc, ps, a0, a1, a2, a3⟩ := inst
    simp only [Inst.opcode] at hop
    subst hop
    simp [ConstantPropagation, Inst.opcode]
  · intro inst hop
    obtain ⟨op, nc, ps, a0, a1, a2, a3⟩ := inst
    simp only [Inst.opcode] at hop
    subst hop
    simp [ConstantPropagation, Inst.opcode]
  · intro inst hop
    obtain ⟨op, nc, ps, a0, a1, a2, a3⟩ := inst
    simp only [Inst.opcode] at hop
    subst hop
    simp [ConstantPropagation, Inst.opcode]
  · intro inst hop
    obtain ⟨op, nc, ps, a0, a1, a2, a3⟩ := inst
    simp only [Inst.opcode] at hop
    subst hop
    simp [ConstantPropagation, Inst.opcode]
  · intro inst hop
    obtain ⟨op, nc, ps, a0, a1, a2, a3⟩ := inst
    simp only [Inst.opcode] at hop
    subst hop
    simp [ConstantPropagation, Inst.opcode]
  · intro inst hop
    obtain ⟨op, nc, ps, a0, a1, a2, a3⟩ := inst
    simp only [Inst.opcode] at hop
    subst hop
    simp [ConstantPropagation, Inst.opcode]
  · intro inst cons ins h0 h1
    simp only [FoldCompositeExtract, h0, h1]
    cases FoldCompositeExtractImpl ins cons ((inst.arg 1).u32Val)
      (inst.arg 0) <;> simp
  · intro inst cons ins h0
    simp [FoldCompositeExtract, h0]
  · intro inst cons ins h1
    by_cases h0 : (inst.arg 0).isImmediate <;> simp [FoldCompositeExtract, h0, h1]
  · intro ins cons idx i hid hc
    obtain ⟨op, nc, ps, a0, a1, a2, a3⟩ := i
    simp only [Inst.opcode] at hid hc
    subst hc
    rw [fceImpl_inst _ _ _ _ _ _ _ _ _ _ hid]
    simp
  · intro ins cons idx i hid hc hi h2 hidx
    obtain ⟨op, nc, ps, a0, a1, a2, a3⟩ := i
    simp only [Inst.opcode] at hid hc hi
    simp only [Inst.arg] at h2 hidx
    subst hi
    rw [fceImpl_inst _ _ _ _ _ _ _ _ _ _ hid]
    simp [hc, h2, hidx, Inst.arg]
  · intro ins cons idx i hid hc hi h2 hidx h0
    obtain ⟨op, nc, ps, a0, a1, a2, a3⟩ := i
    simp only [Inst.opcode] at hid hc hi
    simp only [Inst.arg] at h2 hidx h0 ⊢
    subst hi
    rw [fceImpl_inst _ _ _ _ _ _ _ _ _ _ hid]
    simp [hc, h2, hidx, h0]
  · intro ins cons idx i hid hc hi h2 hidx h0
    obtain ⟨op, nc, ps, a0, a1, a2, a3⟩ := i
    simp only [Inst.opcode] at hid hc hi
    simp only [Inst.arg] at h2 hidx h0
    subst hi
    rw [fceImpl_inst _ _ _ _ _ _ _ _ _ _ hid]
    simp [hc, h2, hidx, h0]
  · intro ins cons idx i hid hc hi h2
    obtain ⟨op, nc, ps, a0, a1, a2, a3⟩ := i
    simp only [Inst.opcode] at hid hc hi
    simp only [Inst.arg] at h2
    subst hi
    rw [fceImpl_inst _ _ _ _ _ _ _ _ _ _ hid]
    simp [hc, h2]
  · intro ins cons idx i hid hc hi
    obtain ⟨op, nc, ps, a0, a1, a2, a3⟩ := i
    simp only [Inst.opcode] at hid hc hi
    rw [fceImpl_inst _ _ _ _ _ _ _ _ _ _ hid]
    simp [hc, hi]

/-- Witness for claim C8: extracting lane 2 from an insert at lane 1 over
a 4-lane construct chases through the insert into the construct and
folds to the construct's third argument. -/
theorem compositeExtract_chase_witness :
    ConstantPropagation (mkInst .CompositeExtractF32x4
        [.inst (mkInst .CompositeInsertF32x4
          [.inst (mkInst .CompositeConstructF32x4
            [.f32 1, .f32 2, .f32 3, .f32 4]), .f32 9, .u32 1]),
         .u32 2]) =
      .ok (mkInst .CompositeExtractF32x4
        [.inst (mkInst .CompositeInsertF32x4
          [.inst (mkInst .CompositeConstructF32x4
            [.f32 1, .f32 2, .f32 3, .f32 4]), .f32 9, .u32 1]),
         .u32 2], .replace (.f32 3)) := by
  rw [compositeExtract_chase.2.2.1 (mkInst .CompositeExtractF32x4
    [.inst (mkInst .CompositeInsertF32x4
      [.inst (mkInst .CompositeConstructF32x4
        [.f32 1, .f32 2, .f32 3, .f32 4]), .f32 9, .u32 1]),
     .u32 2]) rfl]
  decide

end ConstProp
